import Mathlib

/-!
A shallow embedding of the tape-compilation core of `jitfive`
(`src/jitfive/src/backend/tape64.rs`), together with the surrounding data
model (`src/jitfive/src/backend/common.rs`, `src/jitfive/src/scheduled.rs`).

Modelling conventions:
* Rust `u32` / `u8` / `usize` values are `Nat`; `u32::MAX` is the explicit
  constant `UMAX`.  Overflow never occurs on the traced paths (indices are
  bounded by tape length, which is far below `2^32`).
* A Rust panic (failed `assert!`, `unwrap()` of `None`, out-of-bounds index,
  explicit `panic!`) is `Option.none`; every partial function returns
  `Option`.
* `f32` immediates are transported as their `u32` bit pattern, exactly as the
  Rust code stores them in the `data` stream (`f32::to_bits` /
  `f32::from_bits` are mutually inverse bijections, so nothing is lost).
  Floating-point arithmetic itself is abstracted into a structure of opaque
  operations (`Arith`); the claims settled here depend on panic behaviour and
  tape structure, not on IEEE-754 facts.
* A Rust `Vec` used as a random-access array is a `List` indexed from the
  front; a `Vec` used as a LIFO stack (`spare_registers`, `spare_memory`) is
  a `List` whose head is the top of the stack.  The `Vec`s built by `push`
  where the final order matters (`tape`, `data`, allocator output) are built
  by appending at the end, preserving the Rust order.
* `Choice` is matched on four variants in `tape64.rs`
  (`Left | Right | Both | Unknown`, with `Unknown => panic!("oh no")`), and
  the `fidget-core` evaluator fills choice buffers with `Choice::Unknown`,
  so the embedding carries all four variants even though the stale enum in
  `common.rs` lists only the first three.
-/

/-- Rust `u32::MAX`, the sentinel for "unassigned" in the register allocator. -/
def UMAX : Nat := 4294967295

/-- Write `a` at index `i`; `none` models the Rust panic on an
out-of-bounds index assignment. -/
def setIdx (l : List α) (i : Nat) (a : α) : Option (List α) :=
  if i < l.length then some (l.set i a) else none

/-- One step of an iterator: `iter.next().unwrap()` on a list, `none`
modelling the panic when the iterator is exhausted. -/
def nextWord (l : List α) : Option (α × List α) :=
  match l with
  | [] => none
  | a :: t => some (a, t)

/-- Index of the first minimal element (Rust `Iterator::min_by_key`, which
returns the first of several equal minima); `none` on the empty list. -/
def argminFirst (l : List Nat) : Option Nat :=
  match l with
  | [] => none
  | a :: t =>
    some ((t.foldl
      (fun (acc : Nat × Nat × Nat) v =>
        let (bi, bv, i) := acc
        if v < bv then (i, v, i + 1) else (bi, bv, i + 1))
      (0, a, 1)).1)

/-- Rust `ClauseOp64` from `tape64.rs`: the SSA-level opcode set. -/
inductive ClauseOp64
  | Input
  | CopyImm
  | NegReg
  | AbsReg
  | RecipReg
  | SqrtReg
  | SquareReg
  | CopyReg
  | AddRegImm
  | MulRegImm
  | SubImmReg
  | SubRegImm
  | AddRegReg
  | MulRegReg
  | SubRegReg
  | MinRegImm
  | MaxRegImm
  | MinRegReg
  | MaxRegReg
deriving DecidableEq, Repr

/-- Per-min/max choice (`common.rs` / `fidget-core`'s `eval::Choice`);
`tape64.rs::simplify` matches all four variants, panicking on `Unknown`. -/
inductive Choice
  | Left
  | Right
  | Both
  | Unknown
deriving DecidableEq, Repr

/-- Modelled from the spec: the register-form opcode set (`AsmOp`) lives in
`jitfive/src/backend/dynasm.rs`, which is not under `src/`; the constructors
and their operands are taken from the spec (§3, §4.4: register operands are
8-bit indices, plus the two asm-only memory ops `Load(reg, mem_slot)` and
`Store(reg, mem_slot)` with 32-bit memory slots) and from the constructor
applications in `tape64.rs`.  Immediates are carried as `f32` bit
patterns. -/
inductive AsmOp
  | Load (reg : Nat) (mem : Nat)
  | Store (reg : Nat) (mem : Nat)
  | Input (reg : Nat) (axis : Nat)
  | CopyImm (reg : Nat) (imm : Nat)
  | NegReg (out : Nat) (arg : Nat)
  | AbsReg (out : Nat) (arg : Nat)
  | RecipReg (out : Nat) (arg : Nat)
  | SqrtReg (out : Nat) (arg : Nat)
  | SquareReg (out : Nat) (arg : Nat)
  | AddRegReg (out : Nat) (lhs : Nat) (rhs : Nat)
  | MulRegReg (out : Nat) (lhs : Nat) (rhs : Nat)
  | SubRegReg (out : Nat) (lhs : Nat) (rhs : Nat)
  | MinRegReg (out : Nat) (lhs : Nat) (rhs : Nat)
  | MaxRegReg (out : Nat) (lhs : Nat) (rhs : Nat)
  | AddRegImm (out : Nat) (arg : Nat) (imm : Nat)
  | MulRegImm (out : Nat) (arg : Nat) (imm : Nat)
  | SubRegImm (out : Nat) (arg : Nat) (imm : Nat)
  | SubImmReg (out : Nat) (arg : Nat) (imm : Nat)
  | MinRegImm (out : Nat) (arg : Nat) (imm : Nat)
  | MaxRegImm (out : Nat) (arg : Nat) (imm : Nat)
deriving DecidableEq, Repr

/-- Rust `SsaTapeAllocator` state (`tape64.rs:455-492`). -/
structure Alloc where
  allocations : List Nat
  registers : List Nat
  register_lru : List Nat
  time : Nat
  reg_limit : Nat
  spare_registers : List Nat
  spare_memory : List Nat
  total_slots : Nat
  out : List AsmOp
deriving DecidableEq, Repr

/-- Rust `SsaTapeAllocator::new` (`tape64.rs:495-510`).  Note: no allocation is
seeded for any node; `allocations` starts empty. -/
def Alloc.new (reg_limit : Nat) : Alloc :=
  { allocations := []
    registers := List.replicate reg_limit UMAX
    register_lru := List.replicate reg_limit 0
    time := 0
    reg_limit := reg_limit
    spare_registers := []
    spare_memory := []
    total_slots := 0
    out := [] }

/-- Rust `SsaTapeAllocator::get_memory` (`tape64.rs:520-528`). -/
def Alloc.get_memory (a : Alloc) : Nat × Alloc :=
  match a.spare_memory with
  | p :: rest => (p, { a with spare_memory := rest })
  | [] => (a.total_slots, { a with total_slots := a.total_slots + 1 })

/-- Rust `SsaTapeAllocator::oldest_reg` (`tape64.rs:533-542`). -/
def Alloc.oldest_reg (a : Alloc) : Option Nat :=
  argminFirst a.register_lru

/-- Rust `SsaTapeAllocator::get_allocation` (`tape64.rs:546-554`): resize the
`allocations` table to cover `n`, then read it (`u32::MAX` = unassigned). -/
def Alloc.get_allocation (a : Alloc) (n : Nat) : Nat × Alloc :=
  let allocs :=
    if a.allocations.length ≤ n then
      a.allocations ++ List.replicate (n + 1 - a.allocations.length) UMAX
    else a.allocations
  (allocs.getD n UMAX, { a with allocations := allocs })

/-- Rust `SsaTapeAllocator::get_register` (`tape64.rs:565-619`). -/
def Alloc.get_register (a : Alloc) (n : Nat) : Option (Nat × Alloc) := do
  let (slot, a) := a.get_allocation n
  let (reg, a) ←
    if a.reg_limit ≤ slot then do
      -- spare register, else grow, else evict the LRU owner to memory
      let (regOpt, a) :=
        match a.spare_registers with
        | r :: rest => (some r, { a with spare_registers := rest })
        | [] =>
          if a.total_slots < a.reg_limit then
            (some a.total_slots, { a with total_slots := a.total_slots + 1 })
          else (none, a)
      let (reg, a) ←
        match regOpt with
        | some reg => do
          -- assert_eq!(self.registers[reg], u32::MAX)
          let v ← a.registers.get? reg
          if v = UMAX then some (reg, a) else none
        | none => do
          let reg ← a.oldest_reg
          let (mem, a) := a.get_memory
          let prev_node ← a.registers.get? reg
          let allocs ← setIdx a.allocations prev_node mem
          some (reg, { a with allocations := allocs
                              out := a.out ++ [AsmOp.Load reg mem] })
      if slot ≠ UMAX then
        some (reg, { a with spare_memory := slot :: a.spare_memory
                            out := a.out ++ [AsmOp.Store reg slot] })
      else
        some (reg, a)
    else
      some (slot, a)
  let regs ← setIdx a.registers reg n
  let allocs ← setIdx a.allocations n reg
  let lru ← setIdx a.register_lru reg a.time
  some (reg, { a with registers := regs, allocations := allocs
                      register_lru := lru, time := a.time + 1 })

/-- Rust `SsaTapeAllocator::release` (`tape64.rs:622-630`). -/
def Alloc.release (a : Alloc) (reg : Nat) : Option Alloc := do
  let node ← a.registers.get? reg
  let regs ← setIdx a.registers reg UMAX
  let allocs ← setIdx a.allocations node UMAX
  some { a with registers := regs, allocations := allocs
                spare_registers := reg :: a.spare_registers }

/-- Rust `SsaTapeAllocator::op_reg` (`tape64.rs:632-652`); note the wildcard match
arm maps `CopyReg` (deliberately passed by `simplify`) to `panic!()`. -/
def Alloc.op_reg (a : Alloc) (out arg : Nat) (op : ClauseOp64) :
    Option Alloc := do
  let (v, a) := a.get_allocation out
  if v = UMAX then none else do
  let (outR, a) ← a.get_register out
  let a ← a.release outR
  let (argR, a) ← a.get_register arg
  let f ← match op with
    | ClauseOp64.NegReg => some AsmOp.NegReg
    | ClauseOp64.AbsReg => some AsmOp.AbsReg
    | ClauseOp64.RecipReg => some AsmOp.RecipReg
    | ClauseOp64.SqrtReg => some AsmOp.SqrtReg
    | ClauseOp64.SquareReg => some AsmOp.SquareReg
    | _ => none
  some { a with out := a.out ++ [f outR argR] }

/-- Rust `SsaTapeAllocator::op_reg_reg` (`tape64.rs:654-671`). -/
def Alloc.op_reg_reg (a : Alloc) (out lhs rhs : Nat) (op : ClauseOp64) :
    Option Alloc := do
  let (v, a) := a.get_allocation out
  if v = UMAX then none else do
  let (outR, a) ← a.get_register out
  let a ← a.release outR
  let (lhsR, a) ← a.get_register lhs
  let (rhsR, a) ← a.get_register rhs
  let f ← match op with
    | ClauseOp64.AddRegReg => some AsmOp.AddRegReg
    | ClauseOp64.SubRegReg => some AsmOp.SubRegReg
    | ClauseOp64.MulRegReg => some AsmOp.MulRegReg
    | ClauseOp64.MinRegReg => some AsmOp.MinRegReg
    | ClauseOp64.MaxRegReg => some AsmOp.MaxRegReg
    | _ => none
  some { a with out := a.out ++ [f outR lhsR rhsR] }

/-- Rust `SsaTapeAllocator::op_reg_imm` (`tape64.rs:673-690`). -/
def Alloc.op_reg_imm (a : Alloc) (out arg imm : Nat) (op : ClauseOp64) :
    Option Alloc := do
  let (v, a) := a.get_allocation out
  if v = UMAX then none else do
  let (outR, a) ← a.get_register out
  let a ← a.release outR
  let (argR, a) ← a.get_register arg
  let f ← match op with
    | ClauseOp64.AddRegImm => some AsmOp.AddRegImm
    | ClauseOp64.SubRegImm => some AsmOp.SubRegImm
    | ClauseOp64.SubImmReg => some AsmOp.SubImmReg
    | ClauseOp64.MulRegImm => some AsmOp.MulRegImm
    | ClauseOp64.MinRegImm => some AsmOp.MinRegImm
    | ClauseOp64.MaxRegImm => some AsmOp.MaxRegImm
    | _ => none
  some { a with out := a.out ++ [f outR argR imm] }

/-- Rust `SsaTapeAllocator::op_copy_imm` (`tape64.rs:692-699`). -/
def Alloc.op_copy_imm (a : Alloc) (out imm : Nat) : Option Alloc := do
  let (v, a) := a.get_allocation out
  if v = UMAX then none else do
  let (outR, a) ← a.get_register out
  let a ← a.release outR
  some { a with out := a.out ++ [AsmOp.CopyImm outR imm] }

/-- Rust `SsaTapeAllocator::op_input` (`tape64.rs:701-708`). -/
def Alloc.op_input (a : Alloc) (out i : Nat) : Option Alloc := do
  let (v, a) := a.get_allocation out
  if v = UMAX then none else do
  let (outR, a) ← a.get_register out
  let a ← a.release outR
  some { a with out := a.out ++ [AsmOp.Input outR i] }

/-- Rust `SsaTape` (`tape64.rs:107-125`): opcodes in root-first order, a dense
`u32` data stream (output slot, then operands; immediates as `f32` bits),
and the number of choice (min/max) operations. -/
structure SsaTape where
  tape : List ClauseOp64
  data : List Nat
  choice_count : Nat
deriving DecidableEq, Repr

/-- The mutable state threaded through `SsaTape::simplify`'s loop
(`tape64.rs:236-252`): the `active` table, the `0..` counter (the value its
next `next()` will yield), the new tape's choice count, the two input
iterators, the two output buffers, and the allocator. -/
structure SimpState where
  active : List (Option Nat)
  count : Nat
  choice_count : Nat
  dataIt : List Nat
  choiceIt : List Choice
  ops_out : List ClauseOp64
  data_out : List Nat
  alloc : Alloc
deriving DecidableEq, Repr

/-- Rust `active[j].get_or_insert_with(|| count.next().unwrap())`
(`tape64.rs:300-301` and friends): return the slot recorded for old slot
`j`, or assign it the next fresh slot.  Reading `active` out of bounds is a
panic. -/
def getOrInsert (active : List (Option Nat)) (count : Nat) (j : Nat) :
    Option (Nat × List (Option Nat) × Nat) := do
  let cur ← active.get? j
  match cur with
  | some v => some (v, active, count)
  | none => some (count, active.set j (some count), count + 1)

/-- One iteration of the loop in `SsaTape::simplify` (`tape64.rs:253-439`):
consume the op's output slot from the data stream, skip the op if it is
dead, otherwise rewrite it per the matching choice and inform the
allocator. -/
def simpStep (s : SimpState) (op : ClauseOp64) : Option SimpState := do
  let (index, rest) ← nextWord s.dataIt
  let act ← s.active.get? index
  match act with
  | none =>
    -- dead code: discard the remaining operand words (and choice entry)
    match op with
    | .Input | .CopyImm | .NegReg | .AbsReg | .RecipReg | .SqrtReg
    | .SquareReg | .CopyReg => do
      let (_, d) ← nextWord rest
      some { s with dataIt := d }
    | .AddRegImm | .MulRegImm | .SubRegImm | .SubImmReg
    | .AddRegReg | .MulRegReg | .SubRegReg => do
      let (_, d) ← nextWord rest
      let (_, d) ← nextWord d
      some { s with dataIt := d }
    | .MinRegImm | .MaxRegImm | .MinRegReg | .MaxRegReg => do
      let (_, d) ← nextWord rest
      let (_, d) ← nextWord d
      let (_, c) ← nextWord s.choiceIt
      some { s with dataIt := d, choiceIt := c }
  | some new_index =>
    match op with
    | .Input => do
      let (i, d) ← nextWord rest
      let s := { s with dataIt := d
                        data_out := s.data_out ++ [new_index, i]
                        ops_out := s.ops_out ++ [ClauseOp64.Input] }
      -- i.try_into().unwrap() : u32 -> u8
      let i8 ← if i < 256 then some i else none
      let al ← s.alloc.op_input new_index i8
      some { s with alloc := al }
    | .CopyImm => do
      let (i, d) ← nextWord rest
      let s := { s with dataIt := d
                        data_out := s.data_out ++ [new_index, i]
                        ops_out := s.ops_out ++ [ClauseOp64.CopyImm] }
      let al ← s.alloc.op_copy_imm new_index i
      some { s with alloc := al }
    | .NegReg | .AbsReg | .RecipReg | .SqrtReg | .SquareReg => do
      let (argOld, d) ← nextWord rest
      let (arg, active, count) ← getOrInsert s.active s.count argOld
      let s := { s with dataIt := d, active := active, count := count
                        data_out := s.data_out ++ [new_index, arg]
                        ops_out := s.ops_out ++ [op] }
      let al ← s.alloc.op_reg new_index arg op
      some { s with alloc := al }
    | .CopyReg => do
      let (src, d) ← nextWord rest
      let av ← s.active.get? src
      match av with
      | some new_src => do
        let s := { s with dataIt := d
                          data_out := s.data_out ++ [new_index, new_src]
                          ops_out := s.ops_out ++ [ClauseOp64.CopyReg] }
        let al ← s.alloc.op_reg new_index new_src ClauseOp64.CopyReg
        some { s with alloc := al }
      | none =>
        some { s with dataIt := d
                      active := s.active.set src (some new_index) }
    | .MinRegImm | .MaxRegImm => do
      let (argOld, d) ← nextWord rest
      let (imm, d) ← nextWord d
      let (ch, cIt) ← nextWord s.choiceIt
      let s := { s with dataIt := d, choiceIt := cIt }
      match ch with
      | Choice.Left => do
        let av ← s.active.get? argOld
        match av with
        | some new_arg => do
          let s := { s with data_out := s.data_out ++ [new_index, new_arg]
                            ops_out := s.ops_out ++ [ClauseOp64.CopyReg] }
          let al ← s.alloc.op_reg new_index new_arg ClauseOp64.CopyReg
          some { s with alloc := al }
        | none =>
          some { s with active := s.active.set argOld (some new_index) }
      | Choice.Right => do
        let s := { s with data_out := s.data_out ++ [new_index, imm]
                          ops_out := s.ops_out ++ [ClauseOp64.CopyImm] }
        let al ← s.alloc.op_copy_imm new_index imm
        some { s with alloc := al }
      | Choice.Both => do
        let s := { s with choice_count := s.choice_count + 1 }
        let (arg, active, count) ← getOrInsert s.active s.count argOld
        let s := { s with active := active, count := count
                          data_out := s.data_out ++ [new_index, arg, imm]
                          ops_out := s.ops_out ++ [op] }
        let al ← s.alloc.op_reg_imm new_index arg imm op
        some { s with alloc := al }
      | Choice.Unknown => none
    | .MinRegReg | .MaxRegReg => do
      let (lhsOld, d) ← nextWord rest
      let (rhsOld, d) ← nextWord d
      let (ch, cIt) ← nextWord s.choiceIt
      let s := { s with dataIt := d, choiceIt := cIt }
      match ch with
      | Choice.Left => do
        let av ← s.active.get? lhsOld
        match av with
        | some new_lhs => do
          let s := { s with data_out := s.data_out ++ [new_index, new_lhs]
                            ops_out := s.ops_out ++ [ClauseOp64.CopyReg] }
          let al ← s.alloc.op_reg new_index new_lhs ClauseOp64.CopyReg
          some { s with alloc := al }
        | none =>
          some { s with active := s.active.set lhsOld (some new_index) }
      | Choice.Right => do
        let av ← s.active.get? rhsOld
        match av with
        | some new_rhs => do
          let s := { s with data_out := s.data_out ++ [new_index, new_rhs]
                            ops_out := s.ops_out ++ [ClauseOp64.CopyReg] }
          let al ← s.alloc.op_reg new_index new_rhs ClauseOp64.CopyReg
          some { s with alloc := al }
        | none =>
          some { s with active := s.active.set rhsOld (some new_index) }
      | Choice.Both => do
        let s := { s with choice_count := s.choice_count + 1 }
        let (lhs, active, count) ← getOrInsert s.active s.count lhsOld
        let (rhs, active, count) ← getOrInsert active count rhsOld
        let s := { s with active := active, count := count
                          data_out := s.data_out ++ [new_index, lhs, rhs]
                          ops_out := s.ops_out ++ [op] }
        let al ← s.alloc.op_reg_reg new_index lhs rhs op
        some { s with alloc := al }
      | Choice.Unknown => none
    | .AddRegReg | .MulRegReg | .SubRegReg => do
      let (lhsOld, d) ← nextWord rest
      let (lhs, active, count) ← getOrInsert s.active s.count lhsOld
      let (rhsOld, d) ← nextWord d
      let (rhs, active, count) ← getOrInsert active count rhsOld
      let s := { s with dataIt := d, active := active, count := count
                        data_out := s.data_out ++ [new_index, lhs, rhs]
                        ops_out := s.ops_out ++ [op] }
      let al ← s.alloc.op_reg_reg new_index lhs rhs op
      some { s with alloc := al }
    | .AddRegImm | .MulRegImm | .SubRegImm | .SubImmReg => do
      let (argOld, d) ← nextWord rest
      let (arg, active, count) ← getOrInsert s.active s.count argOld
      let (imm, d) ← nextWord d
      let s := { s with dataIt := d, active := active, count := count
                        data_out := s.data_out ++ [new_index, arg, imm]
                        ops_out := s.ops_out ++ [op] }
      let al ← s.alloc.op_reg_imm new_index arg imm op
      some { s with alloc := al }

/-- Rust `SsaTape::simplify` (`tape64.rs:230-452`): seed `active` at the root
slot `data[0]` with new slot `0`, walk the tape root-first, then check the
two final `assert_eq!`s and package the new SSA tape and the asm tape. -/
def SsaTape.simplify (t : SsaTape) (choices : List Choice)
    (reg_limit : Nat) : Option (SsaTape × List AsmOp) := do
  let root ← t.data.get? 0
  let active ← setIdx (List.replicate t.tape.length none) root (some 0)
  let s0 : SimpState :=
    { active := active, count := 1, choice_count := 0
      dataIt := t.data, choiceIt := choices.reverse
      ops_out := [], data_out := [], alloc := Alloc.new reg_limit }
  let s ← t.tape.foldlM simpStep s0
  -- assert_eq!(count.next().unwrap() as usize, ops_out.len())
  if s.count ≠ s.ops_out.length then none else do
  -- assert_eq!(ops_out.len(), alloc.out.len())
  if s.ops_out.length ≠ s.alloc.out.length then none else
  some (⟨s.ops_out, s.data_out, s.choice_count⟩, s.alloc.out)

/-- The `f32` carrier abstracted: the reference evaluator only combines
values with these operations (`tape64.rs:905-974`).  `ofBits` interprets an
immediate stored as its bit pattern; `zero` is the `0.0` fill of the scratch
slot array; `one` feeds `RecipReg` (`1.0 / arg`). -/
structure Arith (V : Type) where
  zero : V
  one : V
  ofBits : Nat → V
  neg : V → V
  abs : V → V
  sqrt : V → V
  add : V → V → V
  sub : V → V → V
  mul : V → V → V
  div : V → V → V
  vmin : V → V → V
  vmax : V → V → V

/-- One op of `SsaTapeEval::f`'s reverse walk (`tape64.rs:908-971`):
operands are consumed first, then the computed value is written at the
output slot. -/
def evalStep (A : Arith V) (x y z : V) (st : List V × List Nat)
    (op : ClauseOp64) : Option (List V × List Nat) := do
  let (slots, dat) := st
  let (out, dat) ←
    match op with
    | ClauseOp64.Input => do
      let (i, dat) ← nextWord dat
      let v ← match i with
        | 0 => some x
        | 1 => some y
        | 2 => some z
        | _ => none
      some (v, dat)
    | .NegReg | .AbsReg | .RecipReg | .SqrtReg | .CopyReg | .SquareReg => do
      let (ai, dat) ← nextWord dat
      let arg ← slots.get? ai
      let v := match op with
        | ClauseOp64.NegReg => A.neg arg
        | ClauseOp64.AbsReg => A.abs arg
        | ClauseOp64.RecipReg => A.div A.one arg
        | ClauseOp64.SqrtReg => A.sqrt arg
        | ClauseOp64.SquareReg => A.mul arg arg
        | _ => arg   -- CopyReg
      some (v, dat)
    | .AddRegReg | .MulRegReg | .SubRegReg | .MinRegReg | .MaxRegReg => do
      let (ri, dat) ← nextWord dat
      let rhs ← slots.get? ri
      let (li, dat) ← nextWord dat
      let lhs ← slots.get? li
      let v := match op with
        | ClauseOp64.AddRegReg => A.add lhs rhs
        | ClauseOp64.MulRegReg => A.mul lhs rhs
        | ClauseOp64.SubRegReg => A.sub lhs rhs
        | ClauseOp64.MinRegReg => A.vmin lhs rhs
        | _ => A.vmax lhs rhs
      some (v, dat)
    | .AddRegImm | .MulRegImm | .SubImmReg | .SubRegImm
    | .MinRegImm | .MaxRegImm => do
      let (ib, dat) ← nextWord dat
      let imm := A.ofBits ib
      let (ai, dat) ← nextWord dat
      let arg ← slots.get? ai
      let v := match op with
        | ClauseOp64.AddRegImm => A.add arg imm
        | ClauseOp64.MulRegImm => A.mul arg imm
        | ClauseOp64.SubImmReg => A.sub imm arg
        | ClauseOp64.SubRegImm => A.sub arg imm
        | ClauseOp64.MinRegImm => A.vmin arg imm
        | _ => A.vmax arg imm
      some (v, dat)
    | ClauseOp64.CopyImm => do
      let (ib, dat) ← nextWord dat
      some (A.ofBits ib, dat)
  let (oi, dat) ← nextWord dat
  let slots ← setIdx slots oi out
  some (slots, dat)

/-- Rust `SsaTapeEval::f` (`tape64.rs:905-974`): execute the tape in reverse
(execution) order over a scratch slot array sized to the tape, then read
the slot named by `data[0]`. -/
def SsaTape.evalWith (A : Arith V) (t : SsaTape) (x y z : V) : Option V := do
  let init := List.replicate t.tape.length A.zero
  let (slots, _) ← t.tape.reverse.foldlM (evalStep A x y z)
      (init, t.data.reverse)
  let r ← t.data.get? 0
  slots.get? r

/-- A concrete interpretation of the abstract `f32` operations over `Int`,
used to run the evaluator on concrete tapes (any interpretation works for
the structural claims settled here). -/
def intArith : Arith Int :=
  { zero := 0
    one := 1
    ofBits := fun n => (n : Int)
    neg := fun v => -v
    abs := fun v => if v < 0 then -v else v
    sqrt := fun v => v
    add := fun a b => a + b
    sub := fun a b => a - b
    mul := fun a b => a * b
    div := fun a b => a / b
    vmin := fun a b => if a ≤ b then a else b
    vmax := fun a b => if a ≤ b then b else a }

/-- Rust `UnaryOpcode` (from `op.rs`, as used in `tape64.rs:872-878`). -/
inductive UnaryOpcode
  | Neg
  | Abs
  | Recip
  | Sqrt
  | Square
deriving DecidableEq, Repr

/-- Rust `BinaryOpcode` (as used in `tape64.rs:783-799`). -/
inductive BinaryOpcode
  | Add
  | Mul
  | Sub
deriving DecidableEq, Repr

/-- Rust `BinaryChoiceOpcode` (as used in `tape64.rs:831-838`). -/
inductive BinaryChoiceOpcode
  | Min
  | Max
deriving DecidableEq, Repr

/-- Rust `Op = GenericOp<VarIndex, f64, NodeIndex, ChoiceIndex>` (`common.rs:20`),
restricted to the constructors `SsaTapeBuilder::step` matches on
(`tape64.rs:761-882`).  A `Const`'s payload is carried as the `u32` bit
pattern of `c as f32` (the builder's only use of the constant,
`tape64.rs:776`), so the `f64 -> f32` cast sits outside the model. -/
inductive SOp
  | Var (v : Nat)
  | Const (bits : Nat)
  | Unary (u : UnaryOpcode) (a : Nat)
  | Binary (b : BinaryOpcode) (lhs rhs : Nat)
  | BinaryChoice (b : BinaryChoiceOpcode) (lhs rhs : Nat)
deriving DecidableEq, Repr

/-- Rust `Scheduled` (`scheduled.rs:10-16`): a topologically sorted instruction
list (inputs precede uses), a variable table (index to name), and the root
node. -/
structure Scheduled where
  tape : List (Nat × SOp)
  vars : List String
  root : Nat
deriving DecidableEq, Repr

/-- First-match lookup in an association list (Rust `BTreeMap::get`; keys
are unique because every insert is asserted fresh). -/
def alookup (l : List (Nat × Nat)) (k : Nat) : Option Nat :=
  match l with
  | [] => none
  | (k0, v) :: rest => if k0 = k then some v else alookup rest k

/-- Rust `SsaTapeBuilder` state (`tape64.rs:713-723`). -/
structure BuildState where
  tape : List ClauseOp64
  data : List Nat
  mapping : List (Nat × Nat)
  constants : List (Nat × Nat)
  choice_count : Nat
deriving DecidableEq, Repr

/-- Rust `Location` (`tape64.rs:726-729`). -/
inductive Location
  | Slot (r : Nat)
  | Immediate (bits : Nat)
deriving DecidableEq, Repr

/-- Rust `SsaTapeBuilder::get_allocated_value` (`tape64.rs:744-751`): a
materialized slot, else a recorded constant, else panic. -/
def getAllocatedValue (st : BuildState) (node : Nat) : Option Location :=
  match alookup st.mapping node with
  | some r => some (Location.Slot r)
  | none =>
    match alookup st.constants node with
    | some c => some (Location.Immediate c)
    | none => none

/-- Final part of `SsaTapeBuilder::step` (`tape64.rs:885-889`): push the op
and insert the node into `mapping`, asserting it was not present. -/
def finishEmit (st : BuildState) (node index : Nat) (op : ClauseOp64) :
    Option BuildState :=
  match alookup st.mapping node with
  | some _ => none
  | none => some { st with tape := st.tape ++ [op]
                           mapping := (node, index) :: st.mapping }

/-- Rust `SsaTapeBuilder::step` (`tape64.rs:759-890`). -/
def buildStep (vars : List String) (st : BuildState) (entry : Nat × SOp) :
    Option BuildState := do
  let (node, op) := entry
  let index := st.mapping.length
  match op with
  | SOp.Var v => do
    let name ← vars.get? v
    let arg ← match name with
      | "X" => some 0
      | "Y" => some 1
      | "Z" => some 2
      | _ => none
    finishEmit { st with data := st.data ++ [arg, index] } node index
      ClauseOp64.Input
  | SOp.Const bits =>
    some { st with constants := (node, bits) :: st.constants }
  | SOp.Binary b l r => do
    let lv ← getAllocatedValue st l
    let rv ← getAllocatedValue st r
    let (frr, fri, fir) := match b with
      | BinaryOpcode.Add =>
        (ClauseOp64.AddRegReg, ClauseOp64.AddRegImm, ClauseOp64.AddRegImm)
      | BinaryOpcode.Mul =>
        (ClauseOp64.MulRegReg, ClauseOp64.MulRegImm, ClauseOp64.MulRegImm)
      | BinaryOpcode.Sub =>
        (ClauseOp64.SubRegReg, ClauseOp64.SubRegImm, ClauseOp64.SubImmReg)
    match lv, rv with
    | Location.Slot lhs, Location.Slot rhs =>
      finishEmit { st with data := st.data ++ [rhs, lhs, index] } node index
        frr
    | Location.Slot arg, Location.Immediate imm =>
      finishEmit { st with data := st.data ++ [imm, arg, index] } node index
        fri
    | Location.Immediate imm, Location.Slot arg =>
      finishEmit { st with data := st.data ++ [imm, arg, index] } node index
        fir
    | Location.Immediate _, Location.Immediate _ => none
  | SOp.BinaryChoice b l r => do
    let st := { st with choice_count := st.choice_count + 1 }
    let lv ← getAllocatedValue st l
    let rv ← getAllocatedValue st r
    let (frr, fri) := match b with
      | BinaryChoiceOpcode.Min => (ClauseOp64.MinRegReg, ClauseOp64.MinRegImm)
      | BinaryChoiceOpcode.Max => (ClauseOp64.MaxRegReg, ClauseOp64.MaxRegImm)
    match lv, rv with
    | Location.Slot lhs, Location.Slot rhs =>
      finishEmit { st with data := st.data ++ [rhs, lhs, index] } node index
        frr
    | Location.Slot arg, Location.Immediate imm =>
      finishEmit { st with data := st.data ++ [imm, arg, index] } node index
        fri
    | Location.Immediate imm, Location.Slot arg =>
      finishEmit { st with data := st.data ++ [imm, arg, index] } node index
        fri
    | Location.Immediate _, Location.Immediate _ => none
  | SOp.Unary u a => do
    let lv ← getAllocatedValue st a
    let lhs ← match lv with
      | Location.Slot r => some r
      | Location.Immediate _ => none
    let cop := match u with
      | UnaryOpcode.Neg => ClauseOp64.NegReg
      | UnaryOpcode.Abs => ClauseOp64.AbsReg
      | UnaryOpcode.Recip => ClauseOp64.RecipReg
      | UnaryOpcode.Sqrt => ClauseOp64.SqrtReg
      | UnaryOpcode.Square => ClauseOp64.SquareReg
    finishEmit { st with data := st.data ++ [lhs, index] } node index cop

/-- Rust `SsaTape::new` (`tape64.rs:128-138`): run the builder over the schedule,
then reverse `tape` and `data` into root-first order. -/
def SsaTape.new (s : Scheduled) : Option SsaTape := do
  let st ← s.tape.foldlM (buildStep s.vars) ⟨[], [], [], [], 0⟩
  some ⟨st.tape.reverse, st.data.reverse, st.choice_count⟩

/-- Value lookup in the naive walker's environment. -/
def vlookup (l : List (Nat × V)) (k : Nat) : Option V :=
  match l with
  | [] => none
  | (k0, v) :: rest => if k0 = k then some v else vlookup rest k

/-- Modelled from the spec: the oracle for builder correctness is "a naive
DAG walker" (spec §8); no such walker exists under `src/`, so this is the
direct evaluation of a `Scheduled` list in order, each node's value
computed from its children's previously computed values, `Var` resolved
through the variable table exactly as the builder resolves it, and `Const`
taken as the immediate. -/
def naiveEval (A : Arith V) (s : Scheduled) (x y z : V) : Option V := do
  let env ← s.tape.foldlM
    (fun (env : List (Nat × V)) (entry : Nat × SOp) => do
      let (n, op) := entry
      let v ← match op with
        | SOp.Var vi => do
          let name ← s.vars.get? vi
          match name with
          | "X" => some x
          | "Y" => some y
          | "Z" => some z
          | _ => none
        | SOp.Const bits => some (A.ofBits bits)
        | SOp.Unary u a => do
          let av ← vlookup env a
          some (match u with
            | UnaryOpcode.Neg => A.neg av
            | UnaryOpcode.Abs => A.abs av
            | UnaryOpcode.Recip => A.div A.one av
            | UnaryOpcode.Sqrt => A.sqrt av
            | UnaryOpcode.Square => A.mul av av)
        | SOp.Binary b l r => do
          let lv ← vlookup env l
          let rv ← vlookup env r
          some (match b with
            | BinaryOpcode.Add => A.add lv rv
            | BinaryOpcode.Mul => A.mul lv rv
            | BinaryOpcode.Sub => A.sub lv rv)
        | SOp.BinaryChoice b l r => do
          let lv ← vlookup env l
          let rv ← vlookup env r
          some (match b with
            | BinaryChoiceOpcode.Min => A.vmin lv rv
            | BinaryChoiceOpcode.Max => A.vmax lv rv)
      some ((n, v) :: env))
    []
  vlookup env s.root

/-- Rust `Tape` (`tape64.rs:66-70`). -/
structure Tape where
  ssa : SsaTape
  asm : List AsmOp
  reg_limit : Nat
deriving DecidableEq, Repr

/-- Rust `Tape::new_with_reg_limit` (`tape64.rs:77-86`): build the raw SSA tape,
then immediately simplify it with an all-`Both` choice vector. -/
def Tape.new_with_reg_limit (s : Scheduled) (reg_limit : Nat) :
    Option Tape := do
  let ssa ← SsaTape.new s
  let (ssa, asm) ← ssa.simplify
      (List.replicate ssa.choice_count Choice.Both) reg_limit
  some ⟨ssa, asm, reg_limit⟩

/-- Rust `Tape::new` (`tape64.rs:73-75`): register limit `u8::MAX = 255`. -/
def Tape.new (s : Scheduled) : Option Tape :=
  Tape.new_with_reg_limit s 255

/-- Rust `Tape::simplify` (`tape64.rs:88-95`). -/
def Tape.simplify (t : Tape) (choices : List Choice) : Option Tape := do
  let (ssa, asm) ← t.ssa.simplify choices t.reg_limit
  some ⟨ssa, asm, t.reg_limit⟩

/-- The `f32` bit pattern of `1.0` (`0x3F800000`), the constant used by the
tests in `tape64.rs`. -/
def bitsOne : Nat := 1065353216

/-- Schedule for `min(x, y)` (as in `tape64.rs::tests::test_push`):
`x`, `y`, then the min, inputs first. -/
def sMin : Scheduled :=
  ⟨[(0, SOp.Var 0), (1, SOp.Var 1),
    (2, SOp.BinaryChoice BinaryChoiceOpcode.Min 0 1)],
   ["X", "Y"], 2⟩

/-- Schedule for `min(x + 1, y)`
(as in `tape64.rs::tests::basic_interpreter`). -/
def sMinOne : Scheduled :=
  ⟨[(0, SOp.Var 0), (1, SOp.Const bitsOne),
    (2, SOp.Binary BinaryOpcode.Add 0 1), (3, SOp.Var 1),
    (4, SOp.BinaryChoice BinaryChoiceOpcode.Min 2 3)],
   ["X", "Y"], 4⟩

/-- Schedule for `min(x, 1)` (as in `tape64.rs::tests::test_push`). -/
def sMinImm : Scheduled :=
  ⟨[(0, SOp.Var 0), (1, SOp.Const bitsOne),
    (2, SOp.BinaryChoice BinaryChoiceOpcode.Min 0 1)],
   ["X"], 2⟩

/-- Schedule for the lone variable `x` (a tape with zero choice ops). -/
def sX : Scheduled := ⟨[(0, SOp.Var 0)], ["X"], 0⟩

/-- Schedule with a variable whose name is not X/Y/Z. -/
def sBadVar : Scheduled := ⟨[(0, SOp.Var 0)], ["W"], 0⟩

/-- Schedule with a unary op applied to a constant (`f(imm)`). -/
def sUnaryImm : Scheduled :=
  ⟨[(0, SOp.Const bitsOne), (1, SOp.Unary UnaryOpcode.Neg 0)], [], 1⟩

/-- Schedule with a binary op whose operands are both constants
(`f(imm, imm)`). -/
def sImmImm : Scheduled :=
  ⟨[(0, SOp.Const bitsOne), (1, SOp.Const bitsOne),
    (2, SOp.Binary BinaryOpcode.Add 0 1)], [], 2⟩

/-- The SSA tape `SsaTape::new` builds from `sMin`: root-first
`[Min $2 $0 $1; Input $1 %1; Input $0 %0]`. -/
def tMin : SsaTape :=
  ⟨[ClauseOp64.MinRegReg, ClauseOp64.Input, ClauseOp64.Input],
   [2, 0, 1, 1, 1, 0, 0], 1⟩

/-- The SSA tape `SsaTape::new` builds from `sMinOne`. -/
def tMinOne : SsaTape :=
  ⟨[ClauseOp64.MinRegReg, ClauseOp64.Input, ClauseOp64.AddRegImm,
    ClauseOp64.Input],
   [3, 1, 2, 2, 1, 1, 0, bitsOne, 0, 0], 1⟩

/-- The SSA tape `SsaTape::new` builds from `sMinImm`. -/
def tMinImm : SsaTape :=
  ⟨[ClauseOp64.MinRegImm, ClauseOp64.Input],
   [1, 0, bitsOne, 0, 0], 1⟩

/-- The SSA tape `SsaTape::new` builds from `sX`. -/
def tX : SsaTape := ⟨[ClauseOp64.Input], [0, 0], 0⟩

/-- Invariant of the `simplify` loop state throughout the pass: nothing was
ever emitted and the allocator is untouched, because the very first
emission trips `assert!(get_allocation(out) != u32::MAX)` in the `op_*`
helper it invokes (`SsaTapeAllocator::new` never seeds an allocation, so
the first emitted op — whose output is the root's new slot — is always
unassigned). -/
def SimpInv (rl : Nat) (s : SimpState) : Prop :=
  s.ops_out = [] ∧ s.alloc = Alloc.new rl ∧ s.count = 1

/-- Invariant of the `SsaTapeBuilder` state: one emitted op per `mapping`
entry, and the last word pushed to `data` is the output slot of the most
recently emitted op, which is `mapping.len() - 1` (slots are handed out
densely, input-first). -/
def BuildInv (st : BuildState) : Prop :=
  st.tape.length = st.mapping.length ∧
  (st.tape ≠ [] → st.data.getLast? = some (st.mapping.length - 1))

/-- Reading a replicated list with the replicated element as default always
yields that element. -/
theorem getD_replicate (n i : Nat) (a : α) :
    (List.replicate n a).getD i a = a := by
  induction n generalizing i with
  | zero => simp [List.getD]
  | succ n ih =>
    cases i with
    | zero => simp [List.replicate, List.getD]
    | succ j => simp only [List.replicate, List.getD_cons_succ]; exact ih j

/-- On a freshly created allocator the `allocations` table is empty, so
`get_allocation` reports every node as unassigned. -/
theorem get_allocation_new (rl n : Nat) :
    (Alloc.new rl).get_allocation n = (UMAX,
      { Alloc.new rl with allocations := List.replicate (n + 1) UMAX }) := by
  simp [Alloc.get_allocation, Alloc.new, getD_replicate]

theorem op_input_new (rl out i : Nat) :
    (Alloc.new rl).op_input out i = none := by
  simp [Alloc.op_input, get_allocation_new]

theorem op_copy_imm_new (rl out imm : Nat) :
    (Alloc.new rl).op_copy_imm out imm = none := by
  simp [Alloc.op_copy_imm, get_allocation_new]

theorem op_reg_new (rl out arg : Nat) (op : ClauseOp64) :
    (Alloc.new rl).op_reg out arg op = none := by
  simp [Alloc.op_reg, get_allocation_new]

theorem op_reg_reg_new (rl out lhs rhs : Nat) (op : ClauseOp64) :
    (Alloc.new rl).op_reg_reg out lhs rhs op = none := by
  simp [Alloc.op_reg_reg, get_allocation_new]

theorem op_reg_imm_new (rl out arg imm : Nat) (op : ClauseOp64) :
    (Alloc.new rl).op_reg_imm out arg imm op = none := by
  simp [Alloc.op_reg_imm, get_allocation_new]

/-- Binding a constant failure is a failure. -/
theorem bind_none_fun (x : Option α) :
    (x.bind fun _ => (none : Option β)) = none := by
  cases x <;> rfl

set_option maxHeartbeats 1000000 in
theorem simpStep_pres (rl : Nat) (s s' : SimpState) (op : ClauseOp64)
    (hinv : SimpInv rl s) (h : simpStep s op = some s') : SimpInv rl s' := by
  obtain ⟨ho, ha, hc⟩ := hinv
  cases hd : s.dataIt with
  | nil => rw [simpStep] at h; rw [hd] at h; simp [nextWord] at h
  | cons index rest =>
    rw [simpStep] at h
    cases hact : s.active.get? index with
    | none =>
      simp only [nextWord, hd, Option.bind_eq_bind, Option.some_bind,
        hact, Option.none_bind] at h
      exact Option.noConfusion h
    | some act =>
      simp only [nextWord, hd, Option.bind_eq_bind, Option.some_bind,
        hact] at h
      cases act with
      | none =>
        cases op <;>
        first
        | -- ops holding one further data word
          (cases rest with
           | nil => simp at h
           | cons a t =>
             simp only [Option.some_bind, Option.some.injEq] at h
             subst h
             exact ⟨ho, ha, hc⟩)
        | -- ops holding two further data words
          (cases rest with
           | nil => simp at h
           | cons a t =>
             cases t with
             | nil => simp at h
             | cons b u =>
               simp only [Option.some_bind, Option.some.injEq] at h
               subst h
               exact ⟨ho, ha, hc⟩)
        | -- choice ops: two further data words plus a choice entry
          (cases rest with
           | nil => simp at h
           | cons a t =>
             cases t with
             | nil => simp at h
             | cons b u =>
               cases hcc : s.choiceIt with
               | nil => rw [hcc] at h; simp at h
               | cons ch cs =>
                 rw [hcc] at h
                 simp only [Option.some_bind, Option.some.injEq] at h
                 subst h
                 exact ⟨ho, ha, hc⟩)
      | some new_index =>
        cases op with
        | Input =>
          cases rest <;> simp [ha, op_input_new] at h
        | CopyImm =>
          cases rest <;> simp [ha, op_copy_imm_new] at h
        | NegReg =>
          cases rest <;> simp [ha, op_reg_new, bind_none_fun] at h
        | AbsReg =>
          cases rest <;> simp [ha, op_reg_new, bind_none_fun] at h
        | RecipReg =>
          cases rest <;> simp [ha, op_reg_new, bind_none_fun] at h
        | SqrtReg =>
          cases rest <;> simp [ha, op_reg_new, bind_none_fun] at h
        | SquareReg =>
          cases rest <;> simp [ha, op_reg_new, bind_none_fun] at h
        | CopyReg =>
          cases rest with
          | nil => simp at h
          | cons a t =>
            simp only [Option.some_bind] at h
            cases hav : s.active.get? a with
            | none => rw [hav] at h; simp at h
            | some av =>
              rw [hav] at h
              cases av with
              | some nsrc => simp [ha, op_reg_new] at h
              | none =>
                simp only [Option.some_bind, Option.some.injEq] at h
                subst h
                exact ⟨ho, ha, hc⟩
        | MinRegImm =>
          cases rest with
          | nil => simp at h
          | cons a t =>
            cases t with
            | nil => simp at h
            | cons b u =>
              cases hcc : s.choiceIt with
              | nil => rw [hcc] at h; simp at h
              | cons ch cs =>
                rw [hcc] at h
                simp only [Option.some_bind] at h
                cases ch with
                | Left =>
                  cases hav : s.active.get? a with
                  | none => rw [hav] at h; simp at h
                  | some av =>
                    rw [hav] at h
                    cases av with
                    | some narg => simp [ha, op_reg_new] at h
                    | none =>
                      simp only [Option.some_bind, Option.some.injEq] at h
                      subst h
                      exact ⟨ho, ha, hc⟩
                | Right => simp [ha, op_copy_imm_new] at h
                | Both => simp [ha, op_reg_imm_new, bind_none_fun] at h
                | Unknown => simp at h
        | MaxRegImm =>
          cases rest with
          | nil => simp at h
          | cons a t =>
            cases t with
            | nil => simp at h
            | cons b u =>
              cases hcc : s.choiceIt with
              | nil => rw [hcc] at h; simp at h
              | cons ch cs =>
                rw [hcc] at h
                simp only [Option.some_bind] at h
                cases ch with
                | Left =>
                  cases hav : s.active.get? a with
                  | none => rw [hav] at h; simp at h
                  | some av =>
                    rw [hav] at h
                    cases av with
                    | some narg => simp [ha, op_reg_new] at h
                    | none =>
                      simp only [Option.some_bind, Option.some.injEq] at h
                      subst h
                      exact ⟨ho, ha, hc⟩
                | Right => simp [ha, op_copy_imm_new] at h
                | Both => simp [ha, op_reg_imm_new, bind_none_fun] at h
                | Unknown => simp at h
        | MinRegReg =>
          cases rest with
          | nil => simp at h
          | cons a t =>
            cases t with
            | nil => simp at h
            | cons b u =>
              cases hcc : s.choiceIt with
              | nil => rw [hcc] at h; simp at h
              | cons ch cs =>
                rw [hcc] at h
                simp only [Option.some_bind] at h
                cases ch with
                | Left =>
                  cases hav : s.active.get? a with
                  | none => rw [hav] at h; simp at h
                  | some av =>
                    rw [hav] at h
                    cases av with
                    | some nl => simp [ha, op_reg_new] at h
                    | none =>
                      simp only [Option.some_bind, Option.some.injEq] at h
                      subst h
                      exact ⟨ho, ha, hc⟩
                | Right =>
                  cases hav : s.active.get? b with
                  | none => rw [hav] at h; simp at h
                  | some av =>
                    rw [hav] at h
                    cases av with
                    | some nr => simp [ha, op_reg_new] at h
                    | none =>
                      simp only [Option.some_bind, Option.some.injEq] at h
                      subst h
                      exact ⟨ho, ha, hc⟩
                | Both => simp [ha, op_reg_reg_new, bind_none_fun] at h
                | Unknown => simp at h
        | MaxRegReg =>
          cases rest with
          | nil => simp at h
          | cons a t =>
            cases t with
            | nil => simp at h
            | cons b u =>
              cases hcc : s.choiceIt with
              | nil => rw [hcc] at h; simp at h
              | cons ch cs =>
                rw [hcc] at h
                simp only [Option.some_bind] at h
                cases ch with
                | Left =>
                  cases hav : s.active.get? a with
                  | none => rw [hav] at h; simp at h
                  | some av =>
                    rw [hav] at h
                    cases av with
                    | some nl => simp [ha, op_reg_new] at h
                    | none =>
                      simp only [Option.some_bind, Option.some.injEq] at h
                      subst h
                      exact ⟨ho, ha, hc⟩
                | Right =>
                  cases hav : s.active.get? b with
                  | none => rw [hav] at h; simp at h
                  | some av =>
                    rw [hav] at h
                    cases av with
                    | some nr => simp [ha, op_reg_new] at h
                    | none =>
                      simp only [Option.some_bind, Option.some.injEq] at h
                      subst h
                      exact ⟨ho, ha, hc⟩
                | Both => simp [ha, op_reg_reg_new, bind_none_fun] at h
                | Unknown => simp at h
        | AddRegReg =>
          cases rest <;> simp [ha, op_reg_reg_new, bind_none_fun] at h
        | MulRegReg =>
          cases rest <;> simp [ha, op_reg_reg_new, bind_none_fun] at h
        | SubRegReg =>
          cases rest <;> simp [ha, op_reg_reg_new, bind_none_fun] at h
        | AddRegImm =>
          cases rest <;> simp [ha, op_reg_imm_new, bind_none_fun] at h
        | MulRegImm =>
          cases rest <;> simp [ha, op_reg_imm_new, bind_none_fun] at h
        | SubRegImm =>
          cases rest <;> simp [ha, op_reg_imm_new, bind_none_fun] at h
        | SubImmReg =>
          cases rest <;> simp [ha, op_reg_imm_new, bind_none_fun] at h

theorem foldlM_simpStep_pres (rl : Nat) (l : List ClauseOp64)
    (s s' : SimpState) (hinv : SimpInv rl s)
    (h : l.foldlM simpStep s = some s') : SimpInv rl s' := by
  induction l generalizing s with
  | nil =>
    simp only [List.foldlM_nil, pure, Option.some.injEq] at h
    subst h
    exact hinv
  | cons a t ih =>
    rw [List.foldlM_cons] at h
    cases hs : simpStep s a with
    | none => rw [hs] at h; simp at h
    | some s1 =>
      rw [hs] at h
      simp only [Option.bind_eq_bind, Option.some_bind] at h
      exact ih s1 (simpStep_pres rl s s1 a hinv hs) h

/-- `SsaTape::simplify` panics on every input whatsoever: the allocator is
created with an empty `allocations` table and nothing ever seeds the root's
new slot, so the first emitted op fails the
`assert!(get_allocation(out) != u32::MAX)` in the allocator; a run that
emits nothing instead fails the final
`assert_eq!(count.next().unwrap() as usize, ops_out.len())`
(the counter was consumed once to seed the root); and degenerate tapes
panic earlier (indexing `data[0]` or `active[data[0]]`). -/
theorem simplify_always_none (t : SsaTape) (choices : List Choice)
    (rl : Nat) : t.simplify choices rl = none := by
  rw [SsaTape.simplify]
  cases hr : t.data.get? 0 with
  | none => simp
  | some root =>
    simp only [hr, Option.bind_eq_bind, Option.some_bind]
    cases hs : setIdx (List.replicate t.tape.length none) root (some 0) with
    | none => simp
    | some active =>
      simp only [Option.some_bind]
      cases hf : t.tape.foldlM simpStep
          { active := active, count := 1, choice_count := 0
            dataIt := t.data, choiceIt := choices.reverse
            ops_out := [], data_out := [], alloc := Alloc.new rl } with
      | none => simp
      | some s =>
        obtain ⟨ho, ha, hc⟩ := foldlM_simpStep_pres rl t.tape _ s
          ⟨rfl, rfl, rfl⟩ hf
        simp [ho, hc]

theorem finishEmit_pres (st : BuildState) (node : Nat) (op : ClauseOp64)
    (L : List Nat) (st' : BuildState) (hinv : BuildInv st)
    (hL : L.getLast? = some st.mapping.length)
    (h : finishEmit { st with data := st.data ++ L } node st.mapping.length
        op = some st') : BuildInv st' := by
  obtain ⟨h1, _⟩ := hinv
  rw [finishEmit] at h
  cases hm : alookup st.mapping node with
  | some v => rw [hm] at h; exact Option.noConfusion h
  | none =>
    rw [hm] at h
    simp only [Option.some.injEq] at h
    subst h
    constructor
    · simp [h1]
    · intro _
      have hLne : L ≠ [] := by
        intro hnil; rw [hnil] at hL; exact Option.noConfusion hL
      simp only [List.getLast?_append_of_ne_nil _ hLne]
      simpa using hL

set_option maxHeartbeats 1000000 in
theorem buildStep_pres (vars : List String) (st st' : BuildState)
    (e : Nat × SOp) (hinv : BuildInv st)
    (h : buildStep vars st e = some st') : BuildInv st' := by
  obtain ⟨n, op⟩ := e
  cases op with
  | Var v =>
    simp only [buildStep] at h
    cases hv : vars.get? v with
    | none => rw [hv] at h; exact Option.noConfusion h
    | some name =>
      rw [hv] at h
      simp only [Option.bind_eq_bind, Option.some_bind] at h
      split at h
      · exact finishEmit_pres st n ClauseOp64.Input [0, st.mapping.length]
          st' hinv rfl h
      · exact finishEmit_pres st n ClauseOp64.Input [1, st.mapping.length]
          st' hinv rfl h
      · exact finishEmit_pres st n ClauseOp64.Input [2, st.mapping.length]
          st' hinv rfl h
      · simp at h
  | Const bits =>
    simp only [buildStep, Option.some.injEq] at h
    subst h
    exact hinv
  | Binary b l r =>
    simp only [buildStep] at h
    cases hl : getAllocatedValue st l with
    | none => rw [hl] at h; exact Option.noConfusion h
    | some lv =>
      cases hr : getAllocatedValue st r with
      | none => rw [hl, hr] at h; simp at h
      | some rv =>
        rw [hl, hr] at h
        simp only [Option.bind_eq_bind, Option.some_bind] at h
        cases lv with
        | Slot lhs =>
          cases rv with
          | Slot rhs =>
            exact finishEmit_pres st n _ [rhs, lhs, st.mapping.length] st'
              hinv rfl h
          | Immediate imm =>
            exact finishEmit_pres st n _ [imm, lhs, st.mapping.length] st'
              hinv rfl h
        | Immediate imm =>
          cases rv with
          | Slot rhs =>
            exact finishEmit_pres st n _ [imm, rhs, st.mapping.length] st'
              hinv rfl h
          | Immediate i2 => simp at h
  | BinaryChoice b l r =>
    simp only [buildStep] at h
    cases hl : getAllocatedValue
        { st with choice_count := st.choice_count + 1 } l with
    | none => rw [hl] at h; exact Option.noConfusion h
    | some lv =>
      cases hr : getAllocatedValue
          { st with choice_count := st.choice_count + 1 } r with
      | none => rw [hl, hr] at h; simp at h
      | some rv =>
        rw [hl, hr] at h
        simp only [Option.bind_eq_bind, Option.some_bind] at h
        have hinv2 : BuildInv { st with choice_count := st.choice_count + 1 }
            := hinv
        cases lv with
        | Slot lhs =>
          cases rv with
          | Slot rhs =>
            exact finishEmit_pres _ n _ [rhs, lhs, st.mapping.length] st'
              hinv2 rfl h
          | Immediate imm =>
            exact finishEmit_pres _ n _ [imm, lhs, st.mapping.length] st'
              hinv2 rfl h
        | Immediate imm =>
          cases rv with
          | Slot rhs =>
            exact finishEmit_pres _ n _ [imm, rhs, st.mapping.length] st'
              hinv2 rfl h
          | Immediate i2 => simp at h
  | Unary u a =>
    simp only [buildStep] at h
    cases ha : getAllocatedValue st a with
    | none => rw [ha] at h; exact Option.noConfusion h
    | some lv =>
      rw [ha] at h
      simp only [Option.bind_eq_bind, Option.some_bind] at h
      cases lv with
      | Slot lhs =>
        exact finishEmit_pres st n _ [lhs, st.mapping.length] st' hinv rfl h
      | Immediate imm => simp at h

theorem foldlM_buildStep_pres (vars : List String)
    (l : List (Nat × SOp)) (st st' : BuildState) (hinv : BuildInv st)
    (h : l.foldlM (buildStep vars) st = some st') : BuildInv st' := by
  induction l generalizing st with
  | nil =>
    simp only [List.foldlM_nil, pure, Option.some.injEq] at h
    subst h
    exact hinv
  | cons a t ih =>
    rw [List.foldlM_cons] at h
    cases hs : buildStep vars st a with
    | none => rw [hs] at h; simp at h
    | some s1 =>
      rw [hs] at h
      simp only [Option.bind_eq_bind, Option.some_bind] at h
      exact ih s1 (buildStep_pres vars st s1 a hinv hs) h

/-- C10: the raw tape built by `SsaTape::new` (before any simplify pass)
stores in `data[0]` the output slot of the first (root-first) op — the
root's op for a root-last schedule — and that slot is `tape.len() - 1`,
the highest slot, because the builder hands out dense indices input-first
and reverses at the end; consequently the root cannot sit at slot `0`
whenever the tape has at least two ops. -/
theorem c10_raw_root_slot (s : Scheduled) (t : SsaTape)
    (h : SsaTape.new s = some t) (hne : t.tape ≠ []) :
    t.data.head? = some (t.tape.length - 1) ∧
    (2 ≤ t.tape.length → t.data.head? ≠ some 0) := by
  rw [SsaTape.new] at h
  cases hf : s.tape.foldlM (buildStep s.vars) ⟨[], [], [], [], 0⟩ with
  | none => rw [hf] at h; exact Option.noConfusion h
  | some st =>
    rw [hf] at h
    simp only [Option.bind_eq_bind, Option.some_bind, Option.some.injEq] at h
    subst h
    have hinv : BuildInv st := by
      refine foldlM_buildStep_pres s.vars s.tape ⟨[], [], [], [], 0⟩ st
        ⟨rfl, ?_⟩ hf
      intro hc
      exact absurd rfl hc
    obtain ⟨h1, h2⟩ := hinv
    have hstne : st.tape ≠ [] := by
      intro hnil
      rw [hnil] at hne
      exact hne rfl
    have hlast := h2 hstne
    have hhead : (SsaTape.mk st.tape.reverse st.data.reverse
        st.choice_count).data.head? = st.data.getLast? := by
      simp [List.head?_reverse]
    have hlen : (SsaTape.mk st.tape.reverse st.data.reverse
        st.choice_count).tape.length = st.mapping.length := by
      simp [h1]
    refine ⟨?_, ?_⟩
    · rw [hhead, hlast, hlen]
    · intro h2le heq
      rw [hhead, hlast] at heq
      rw [hlen] at h2le
      simp only [Option.some.injEq] at heq
      omega

/-- C1: the claim states that for every well-formed tape and every choice
vector consistent with a prior evaluation at a point, evaluating the
simplified SSA tape at that point equals evaluating the original.  The code
refutes it at this concrete input: `tMin` is the well-formed tape that
`SsaTape::new` builds for `min(x, y)`; at `(1, 2, 0)` the evaluator returns
the left value, so `[Left]` is the consistent choice vector; yet
`simplify(tMin, [Left])` returns no tape at all — it panics in the
allocator's un-seeded-root assert. -/
theorem c1_simplify_panics_on_consistent_choices :
    SsaTape.new sMin = some tMin ∧
    tMin.evalWith intArith 1 2 0 = some 1 ∧
    tMin.simplify [Choice.Left] 255 = none :=
  ⟨by decide, by decide, simplify_always_none tMin [Choice.Left] 255⟩

/-- C2: the claim states that `Tape::new(s)`'s SSA tape evaluates like a
naive walk of the scheduled DAG.  The builder alone satisfies the oracle
(third and fourth conjuncts, at `(1, 2, 0)`), but `Tape::new` never returns
a tape: its internal all-`Both` simplify panics in the allocator. -/
theorem c2_tape_new_panics :
    Tape.new sMinOne = none ∧
    SsaTape.new sMinOne = some tMinOne ∧
    tMinOne.evalWith intArith 1 2 0 = naiveEval intArith sMinOne 1 2 0 ∧
    naiveEval intArith sMinOne 1 2 0 = some 2 :=
  ⟨by decide, by decide, by decide, by decide⟩

/-- C3: the claim states that `SsaTape::simplify` is total over well-formed
inputs and that the allocator's `assert!(get_allocation(out) != u32::MAX)`
never fails.  In fact `simplify` returns nothing on every input whatsoever:
`SsaTapeAllocator::new` seeds no allocation, so the first emitted op (whose
output is the root's new slot) always fails that assert, and a run that
emits nothing fails the final `assert_eq!(count.next(), ops_out.len())`. -/
theorem c3_simplify_never_returns (t : SsaTape) (choices : List Choice)
    (reg_limit : Nat) : t.simplify choices reg_limit = none :=
  simplify_always_none t choices reg_limit

/-- C4: the claim states that for well-formed inputs the returned SSA tape
has root output slot `0` and `next_slot == ops_out.len()`.  No tape is ever
returned: at the well-formed input `tMinOne` (built by `SsaTape::new` from
`min(x + 1, y)`, one choice op, matching choice slice) `simplify` panics
before reaching its final asserts. -/
theorem c4_simplify_returns_no_tape :
    SsaTape.new sMinOne = some tMinOne ∧
    tMinOne.choice_count = 1 ∧
    tMinOne.simplify [Choice.Both] 255 = none :=
  ⟨by decide, by decide, simplify_always_none tMinOne [Choice.Both] 255⟩

/-- C5: the claim bounds the register indices of "every asm tape produced
by `SsaTape::simplify`" and requires every read register to have been
written.  No asm tape is ever produced: for the well-formed tape `tMin`
and its matching choice vector, `simplify` returns nothing at any register
limit. -/
theorem c5_no_asm_tape_produced (reg_limit : Nat) :
    tMin.simplify [Choice.Both] reg_limit = none :=
  simplify_always_none tMin [Choice.Both] reg_limit

/-- C6: the claim states that `reg_limit = 1` still produces a correct asm
tape for any well-formed scheduled DAG.  `Tape::new_with_reg_limit(s, 1)`
returns nothing for these DAGs (`min(x, y)` and `min(x + 1, y)`): the
all-`Both` simplify inside panics in the allocator before emitting any asm
op. -/
theorem c6_reg_limit_one_panics :
    Tape.new_with_reg_limit sMin 1 = none ∧
    Tape.new_with_reg_limit sMinOne 1 = none :=
  ⟨by decide, by decide⟩

/-- C7: the claim states `Tape::new(s).simplify(all_Both)` is structurally
identical to `Tape::new(s)`.  There is no such tape to compare:
`Tape::new(sMinImm)` (for `min(x, 1)`) returns nothing because its internal
simplify panics, even though the builder produced the well-formed SSA tape
`tMinImm`. -/
theorem c7_tape_new_yields_nothing :
    Tape.new sMinImm = none ∧ SsaTape.new sMinImm = some tMinImm :=
  ⟨by decide, by decide⟩

/-- C8: the claim states the builder and simplifier panic exactly on
encoding faults.  The four listed faults do panic (first four conjuncts:
unknown variable name, unary on a constant, both-constant binary, and an
`Unknown` choice), but the final conjunct refutes the "exactly": the
fault-free, well-formed call `simplify(tMinImm, [Both])` panics too, in the
allocator's un-seeded-root assert. -/
theorem c8_panics_not_only_on_encoding_faults :
    SsaTape.new sBadVar = none ∧
    SsaTape.new sUnaryImm = none ∧
    SsaTape.new sImmImm = none ∧
    tMin.simplify [Choice.Unknown] 255 = none ∧
    tMinImm.simplify [Choice.Both] 255 = none :=
  ⟨by decide, by decide, by decide, by decide,
   simplify_always_none tMinImm [Choice.Both] 255⟩

/-- C9: the claim states a zero-choice tape accepts only an empty choice
slice, rejecting non-empty ones.  The code contains no choice-slice
validation at all; it rejects the empty slice just the same: `tX` (the tape
for the lone input `x`) has `choice_count = 0`, and `simplify` panics in
the allocator both with `[]` and with a spurious `[Both]`. -/
theorem c9_zero_choice_tape_accepts_nothing :
    tX.choice_count = 0 ∧
    tX.simplify [] 255 = none ∧
    tX.simplify [Choice.Both] 255 = none :=
  ⟨by decide, simplify_always_none tX [] 255,
   simplify_always_none tX [Choice.Both] 255⟩

/-- C10 witness: the theorem applied to the concrete schedule
`min(x + 1, y)` and the tape the builder produces for it. -/
theorem c10_raw_root_slot_witness :
    tMinOne.data.head? = some (tMinOne.tape.length - 1) ∧
    (2 ≤ tMinOne.tape.length → tMinOne.data.head? ≠ some 0) :=
  c10_raw_root_slot sMinOne tMinOne (by decide) (by decide)
